import Mathlib

/-!
# Verification of the ERC-8004 tail-risk agent core

A shallow embedding, over the rationals, of the numeric/decision core of the
`erc8004-tail-risk-agent` repository:

* `RiskEngine` — `src/agent/risk_engine.py` (signal aggregation, composite score);
* `ClaudeAgent` — `src/agent/src/claude_agent.py` (claim evaluation, two code paths);
* `LLMPricer` — `src/agent/llm_pricer.py` (premium pricing);
* `Rebalancer` — `src/agent/rebalancer.py` (defensive allocation plan);
* `AgentLoop` — `src/agent/src/agent_loop.py` (cycle loop and error counting).

Python floats are modelled as `ℚ`, Python ints as `ℤ`.  Python's `int(x)`
truncates toward zero (`pyInt`), and Python's `round(x, n)` rounds half to
even (`pyRound`).  Free-text fields (log strings, LLM reasoning) are either
kept verbatim where they are data or omitted where they are formatting of the
numeric values already present.
-/

/-- Python `int(x)`: truncation toward zero. -/
def pyInt (q : ℚ) : ℤ := if 0 ≤ q then ⌊q⌋ else -⌊-q⌋

/-- Round to the nearest integer, with ties going to the even integer
(Python's built-in rounding mode). -/
def halfEven (q : ℚ) : ℤ :=
  if q - ⌊q⌋ < 1/2 then ⌊q⌋
  else if 1/2 < q - ⌊q⌋ then ⌊q⌋ + 1
  else if 2 ∣ ⌊q⌋ then ⌊q⌋ else ⌊q⌋ + 1

/-- Python `round(x, n)`: round half to even at `n` decimal digits. -/
def pyRound (q : ℚ) (n : ℕ) : ℚ := (halfEven (q * 10 ^ n) : ℚ) / 10 ^ n

theorem pyInt_eq_floor {q : ℚ} (h : 0 ≤ q) : pyInt q = ⌊q⌋ := by
  rw [pyInt, if_pos h]

theorem pyInt_bounds {q : ℚ} (h0 : 0 ≤ q) (h1 : q ≤ 100) :
    0 ≤ pyInt q ∧ pyInt q ≤ 100 := by
  rw [pyInt, if_pos h0]
  constructor
  · exact Int.le_floor.mpr (by exact_mod_cast h0)
  · have := Int.floor_le_floor (α := ℚ) h1
    simpa using this

theorem floor_le_halfEven (q : ℚ) : ⌊q⌋ ≤ halfEven q := by
  rw [halfEven]; split_ifs <;> omega

theorem halfEven_le_ceil (q : ℚ) : halfEven q ≤ ⌈q⌉ := by
  have hfc : ⌊q⌋ ≤ ⌈q⌉ := Int.floor_le_ceil q
  have hstep : (⌊q⌋ : ℚ) < q → ⌊q⌋ + 1 ≤ ⌈q⌉ := fun h =>
    Int.lt_ceil.mpr h
  rw [halfEven]
  split_ifs with h1 h2 h3
  · exact hfc
  · exact hstep (by linarith [Int.floor_le q])
  · exact hfc
  · have hq : q - ⌊q⌋ = 1/2 := le_antisymm (not_lt.mp h2) (not_lt.mp h1)
    exact hstep (by linarith)

/-- `pyRound` keeps a value between any two bounds that are exact at `n`
decimal digits. -/
theorem pyRound_bounds {q a b : ℚ} {n : ℕ} (za zb : ℤ)
    (hza : (za : ℚ) = a * 10 ^ n) (hzb : (zb : ℚ) = b * 10 ^ n)
    (ha : a ≤ q) (hb : q ≤ b) : a ≤ pyRound q n ∧ pyRound q n ≤ b := by
  have hpow : (0 : ℚ) < 10 ^ n := by positivity
  have hlo : (za : ℚ) ≤ q * 10 ^ n := by
    rw [hza]; exact mul_le_mul_of_nonneg_right ha hpow.le
  have hhi : q * 10 ^ n ≤ (zb : ℚ) := by
    rw [hzb]; exact mul_le_mul_of_nonneg_right hb hpow.le
  have h1 : za ≤ halfEven (q * 10 ^ n) :=
    le_trans (Int.le_floor.mpr hlo) (floor_le_halfEven _)
  have h2 : halfEven (q * 10 ^ n) ≤ zb :=
    le_trans (halfEven_le_ceil _) (Int.ceil_le.mpr hhi)
  constructor
  · rw [pyRound, le_div_iff₀ hpow, ← hza]; exact_mod_cast h1
  · rw [pyRound, div_le_iff₀ hpow, ← hzb]; exact_mod_cast h2

namespace RiskEngine

/-- `RiskSignal` dataclass of `src/agent/risk_engine.py`. -/
structure RiskSignal where
  name : String
  value : ℚ
  score : ℤ
  weight : ℚ
  description : String

/-- `RiskEngine.SIGNAL_WEIGHTS`, in declaration order (the order of the
`asyncio.gather` call in `get_current_risk`). -/
def SIGNAL_WEIGHTS : List (String × ℚ) :=
  [("realized_vol", 20/100), ("funding_rates", 15/100), ("liquidation_vol", 20/100),
   ("tvl_drawdown", 20/100), ("stablecoin_depeg", 15/100), ("bridge_anomaly", 10/100)]

/-- The neutral signal substituted by `get_current_risk` for a source whose
coroutine raised (lines 66–73 of `risk_engine.py`). -/
def fallbackSignal (name : String) (w : ℚ) : RiskSignal :=
  { name := name, value := 0, score := 25, weight := w,
    description := "Signal unavailable — using neutral baseline" }

/-- One step of the `for i, signal in enumerate(signals)` loop: a raised
exception is replaced by the neutral fallback, a returned signal is kept. -/
def resolve (nw : String × ℚ) (r : Except String RiskSignal) : RiskSignal :=
  match r with
  | Except.error _ => fallbackSignal nw.1 nw.2
  | Except.ok s => s

/-- The `valid_signals` dict built by `get_current_risk`, as a list in
`SIGNAL_WEIGHTS` order.  The input is the list of the six fetch outcomes, in
the same order (`Except.error` models a coroutine that raised). -/
def valid_signals (results : List (Except String RiskSignal)) : List RiskSignal :=
  (SIGNAL_WEIGHTS.zip results).map fun p => resolve p.1 p.2

/-- `total_weight = sum(s.weight for s in valid_signals.values())`. -/
def total_weight (sigs : List RiskSignal) : ℚ := (sigs.map fun s => s.weight).sum

/-- `sum(s.score * s.weight for s in valid_signals.values())`. -/
def weighted_sum (sigs : List RiskSignal) : ℚ :=
  (sigs.map fun s => (s.score : ℚ) * s.weight).sum

/-- `composite_score`: the weighted average before truncation. -/
def composite_score (sigs : List RiskSignal) : ℚ := weighted_sum sigs / total_weight sigs

/-- `risk_level = int(composite_score)`. -/
def risk_level_of (sigs : List RiskSignal) : ℤ := pyInt (composite_score sigs)

/-- `RiskEngine._get_recommendation`. -/
def get_recommendation (rl : ℤ) : String :=
  if 80 ≤ rl then "🚨 BLACK SWAN ACTIVE — Rebalancing to stablecoins. New policies suspended."
  else if 60 ≤ rl then "⚠️ HIGH RISK — Premiums elevated 2-3x. Reduce leveraged exposure."
  else if 40 ≤ rl then "🟡 ELEVATED RISK — Monitor closely. Standard premiums + 50% buffer."
  else if 20 ≤ rl then "🟢 MODERATE RISK — Normal operations. Standard premium pricing."
  else "✅ LOW RISK — Calm market conditions. Discounted premiums available."

/-- The dict returned by `RiskEngine.get_current_risk` (the per-signal
reporting map keeps the resolved signals themselves). -/
structure CompositeRisk where
  risk_level : ℤ
  black_swan_active : Bool
  signals : List RiskSignal
  premium_multiplier : ℚ
  recommendation : String

/-- `RiskEngine.get_current_risk`, lines 50–101 of `src/agent/risk_engine.py`,
as a function of the six fetch outcomes. -/
def get_current_risk (results : List (Except String RiskSignal)) : CompositeRisk :=
  let vs := valid_signals results
  let rl := risk_level_of vs
  { risk_level := rl
    black_swan_active := decide (80 ≤ rl)
    signals := vs
    premium_multiplier := pyRound (1 + ((rl : ℚ) / 100) * 4) 2
    recommendation := get_recommendation rl }

/-- Modelled from the spec: `riskLevel == round(Σ(score_i · weight_i) / Σ(weight_i))`
"clamp to [0,100]" (§3, §4.1); `round` is rounding to the nearest integer. -/
def spec_risk_level (results : List (Except String RiskSignal)) : ℤ :=
  max 0 (min 100 (round (composite_score (valid_signals results))))

theorem composite_score_bounds (sigs : List RiskSignal)
    (hs : ∀ s ∈ sigs, 0 ≤ s.score ∧ s.score ≤ 100)
    (hw : ∀ s ∈ sigs, 0 ≤ s.weight)
    (hpos : 0 < total_weight sigs) :
    0 ≤ composite_score sigs ∧ composite_score sigs ≤ 100 := by
  have hws_nonneg : 0 ≤ weighted_sum sigs := by
    apply List.sum_nonneg
    intro x hx
    obtain ⟨s, hs', rfl⟩ := List.mem_map.mp hx
    have h1 := (hs s hs').1
    have h2 := hw s hs'
    have : (0 : ℚ) ≤ (s.score : ℚ) := by exact_mod_cast h1
    positivity
  have hws_le : weighted_sum sigs ≤ 100 * total_weight sigs := by
    rw [weighted_sum, total_weight, ← List.sum_map_mul_left]
    apply List.sum_le_sum
    intro s hs'
    have h2 := (hs s hs').2
    have h2' : (s.score : ℚ) ≤ 100 := by exact_mod_cast h2
    exact mul_le_mul_of_nonneg_right h2' (hw s hs')
  constructor
  · exact div_nonneg hws_nonneg hpos.le
  · rw [composite_score, div_le_iff₀ hpos]
    linarith

end RiskEngine

namespace RiskEngine

/-- C1 (amended): the aggregator's `risk_level` is the `int()`-truncation
(floor, for the nonnegative average) of the weighted average
`Σ(score·weight)/Σ(weight)` over the resolved signal set — not its rounding —
and, whenever every resolved score is in [0,100] and the weights are
nonnegative with positive total, it lies in [0,100] (no explicit clamp is
needed or performed). -/
theorem risk_level_is_truncated_weighted_average
    (results : List (Except String RiskSignal))
    (hs : ∀ s ∈ valid_signals results, 0 ≤ s.score ∧ s.score ≤ 100)
    (hw : ∀ s ∈ valid_signals results, 0 ≤ s.weight)
    (hpos : 0 < total_weight (valid_signals results)) :
    (get_current_risk results).risk_level = ⌊composite_score (valid_signals results)⌋ ∧
    0 ≤ (get_current_risk results).risk_level ∧
    (get_current_risk results).risk_level ≤ 100 := by
  obtain ⟨h0, h1⟩ := composite_score_bounds _ hs hw hpos
  have hrl : (get_current_risk results).risk_level
      = pyInt (composite_score (valid_signals results)) := rfl
  obtain ⟨hb0, hb1⟩ := pyInt_bounds h0 h1
  exact ⟨hrl.trans (pyInt_eq_floor h0), hrl ▸ hb0, hrl ▸ hb1⟩

/-- All six sources failed: every resolved signal is the neutral fallback. -/
def c1_all_failed : List (Except String RiskSignal) :=
  [Except.error "timeout", Except.error "timeout", Except.error "timeout",
   Except.error "timeout", Except.error "timeout", Except.error "timeout"]

/-- Witness for C1 (amended) at the all-failed input: every resolved score is
25, the total weight is 1, and the risk level is the truncated average, in
bounds. -/
theorem risk_level_is_truncated_weighted_average_witness :
    (∀ s ∈ valid_signals c1_all_failed, 0 ≤ s.score ∧ s.score ≤ 100) ∧
    (∀ s ∈ valid_signals c1_all_failed, 0 ≤ s.weight) ∧
    0 < total_weight (valid_signals c1_all_failed) ∧
    ((get_current_risk c1_all_failed).risk_level = ⌊composite_score (valid_signals c1_all_failed)⌋ ∧
     0 ≤ (get_current_risk c1_all_failed).risk_level ∧
     (get_current_risk c1_all_failed).risk_level ≤ 100) := by
  have hs : ∀ s ∈ valid_signals c1_all_failed, 0 ≤ s.score ∧ s.score ≤ 100 := by
    norm_num [valid_signals, SIGNAL_WEIGHTS, c1_all_failed, resolve, fallbackSignal]
  have hw : ∀ s ∈ valid_signals c1_all_failed, 0 ≤ s.weight := by
    norm_num [valid_signals, SIGNAL_WEIGHTS, c1_all_failed, resolve, fallbackSignal]
  have hpos : 0 < total_weight (valid_signals c1_all_failed) := by
    norm_num [valid_signals, SIGNAL_WEIGHTS, c1_all_failed, resolve, fallbackSignal, total_weight]
  exact ⟨hs, hw, hpos, risk_level_is_truncated_weighted_average c1_all_failed hs hw hpos⟩

/-- Six successful fetches whose weighted average is 5.6. -/
def c1_cex : List (Except String RiskSignal) :=
  [Except.ok ⟨"realized_vol", 0, 28, 20/100, ""⟩,
   Except.ok ⟨"funding_rates", 0, 0, 15/100, ""⟩,
   Except.ok ⟨"liquidation_vol", 0, 0, 20/100, ""⟩,
   Except.ok ⟨"tvl_drawdown", 0, 0, 20/100, ""⟩,
   Except.ok ⟨"stablecoin_depeg", 0, 0, 15/100, ""⟩,
   Except.ok ⟨"bridge_anomaly", 0, 0, 10/100, ""⟩]

/-- C1 counterexample: with scores (28,0,0,0,0,0) the weighted average is 5.6;
the code returns `int(5.6) = 5` while the claimed `round(5.6)` (clamped) is 6. -/
theorem risk_level_round_counterexample :
    (get_current_risk c1_cex).risk_level = 5 ∧
    spec_risk_level c1_cex = 6 ∧
    (get_current_risk c1_cex).risk_level ≠ spec_risk_level c1_cex := by
  have h : composite_score (valid_signals c1_cex) = 28/5 := by
    norm_num [valid_signals, SIGNAL_WEIGHTS, c1_cex, resolve, composite_score,
      weighted_sum, total_weight]
  refine ⟨?_, ?_, ?_⟩
  · show risk_level_of (valid_signals c1_cex) = 5
    rw [risk_level_of, h]
    norm_num [pyInt]
  · rw [spec_risk_level, h]
    norm_num [round_eq]
  · show risk_level_of (valid_signals c1_cex) ≠ spec_risk_level c1_cex
    rw [risk_level_of, spec_risk_level, h]
    norm_num [pyInt, round_eq]

end RiskEngine

namespace RiskEngine

theorem valid_signals_getElem (rs : List (Except String RiskSignal)) (j : ℕ) :
    (valid_signals rs)[j]? =
      (SIGNAL_WEIGHTS[j]?).bind fun nw => (rs[j]?).map fun r => resolve nw r := by
  rw [valid_signals, List.getElem?_map, List.zip, List.getElem?_zipWith']
  cases h1 : SIGNAL_WEIGHTS[j]? <;> cases h2 : rs[j]? <;> simp

/-- C4: the aggregator is total and failure-isolated.  Failing one source (an
`Except.error` outcome at position `i`) still yields a full six-signal
composite; position `i` is resolved to the fixed neutral fallback
`{score := 25, weight := configured weight}`, and every other position
resolves exactly as it would have without the failure. -/
theorem aggregate_isolates_failures (rs : List (Except String RiskSignal))
    (hlen : rs.length = 6) (i : ℕ) (hi : i < 6) (msg : String) :
    (valid_signals (rs.set i (Except.error msg))).length = 6 ∧
    (valid_signals (rs.set i (Except.error msg)))[i]? =
      (SIGNAL_WEIGHTS[i]?).map (fun nw => fallbackSignal nw.1 nw.2) ∧
    (∀ j, j ≠ i → (valid_signals (rs.set i (Except.error msg)))[j]? = (valid_signals rs)[j]?) := by
  have hwlen : SIGNAL_WEIGHTS.length = 6 := by rfl
  refine ⟨?_, ?_, ?_⟩
  · rw [valid_signals, List.length_map, List.length_zip, hwlen, List.length_set, hlen]
    simp
  · rw [valid_signals_getElem]
    have hset : (rs.set i (Except.error msg))[i]? = some (Except.error msg) :=
      List.getElem?_set_self (by omega)
    have hnw : SIGNAL_WEIGHTS[i]? = some (SIGNAL_WEIGHTS[i]) :=
      List.getElem?_eq_getElem (by rw [hwlen]; exact hi)
    rw [hset, hnw]
    simp [resolve]
  · intro j hj
    rw [valid_signals_getElem, valid_signals_getElem,
      List.getElem?_set_ne (fun h => hj h.symm)]

end RiskEngine

namespace RiskEngine

/-- Witness for C4 at a concrete six-outcome input with source 0 failing. -/
theorem aggregate_isolates_failures_witness :
    c1_cex.length = 6 ∧ (0 : ℕ) < 6 ∧
    ((valid_signals (c1_cex.set 0 (Except.error "http timeout"))).length = 6 ∧
     (valid_signals (c1_cex.set 0 (Except.error "http timeout")))[0]? =
       (SIGNAL_WEIGHTS[0]?).map (fun nw => fallbackSignal nw.1 nw.2) ∧
     (∀ j, j ≠ 0 →
       (valid_signals (c1_cex.set 0 (Except.error "http timeout")))[j]? =
         (valid_signals c1_cex)[j]?)) :=
  ⟨rfl, by decide,
   aggregate_isolates_failures c1_cex rfl 0 (by decide) "http timeout"⟩

theorem map_sum_set (l : List RiskSignal) (f : RiskSignal → ℚ) :
    ∀ (i : ℕ) (hi : i < l.length) (x : RiskSignal),
      ((l.set i x).map f).sum = (l.map f).sum - f (l.get ⟨i, hi⟩) + f x := by
  induction l with
  | nil => intro i hi x; simp at hi
  | cons a t ih =>
    intro i hi x
    cases i with
    | zero => simp [List.set]; ring
    | succ n =>
      have hn : n < t.length := by simpa using hi
      simp only [List.set, List.map_cons, List.sum_cons, ih n hn x, List.get]
      ring

/-- C5 (amended): replacing the successful signal at position `i` by the
neutral fallback (score 25, same weight) moves the pre-truncation weighted
composite by at most `weight_i · 100 / Σweights`, for every weight set with
nonnegative weights and positive total and all scores in [0,100].  (The
truncated integer `risk_level` can additionally cross one integer boundary;
see the counterexample.) -/
theorem composite_fallback_shift_bound (sigs : List RiskSignal) (i : ℕ)
    (hi : i < sigs.length)
    (hs : ∀ s ∈ sigs, 0 ≤ s.score ∧ s.score ≤ 100)
    (hw : ∀ s ∈ sigs, 0 ≤ s.weight)
    (hpos : 0 < total_weight sigs) :
    |composite_score
        (sigs.set i (fallbackSignal (sigs.get ⟨i, hi⟩).name (sigs.get ⟨i, hi⟩).weight))
      - composite_score sigs|
      ≤ (sigs.get ⟨i, hi⟩).weight * 100 / total_weight sigs := by
  have hmem : sigs.get ⟨i, hi⟩ ∈ sigs := List.get_mem sigs i hi
  have hw_s : 0 ≤ (sigs.get ⟨i, hi⟩).weight := hw _ hmem
  have hsc := hs _ hmem
  have hW : total_weight
      (sigs.set i (fallbackSignal (sigs.get ⟨i, hi⟩).name (sigs.get ⟨i, hi⟩).weight))
      = total_weight sigs := by
    rw [total_weight, total_weight, map_sum_set sigs _ i hi]
    simp [fallbackSignal]
  have hWS : weighted_sum
      (sigs.set i (fallbackSignal (sigs.get ⟨i, hi⟩).name (sigs.get ⟨i, hi⟩).weight))
      = weighted_sum sigs - ((sigs.get ⟨i, hi⟩).score : ℚ) * (sigs.get ⟨i, hi⟩).weight
        + 25 * (sigs.get ⟨i, hi⟩).weight := by
    rw [weighted_sum, weighted_sum, map_sum_set sigs _ i hi]
    simp [fallbackSignal]
  have hdiff : composite_score
      (sigs.set i (fallbackSignal (sigs.get ⟨i, hi⟩).name (sigs.get ⟨i, hi⟩).weight))
      - composite_score sigs
      = (sigs.get ⟨i, hi⟩).weight * (25 - ((sigs.get ⟨i, hi⟩).score : ℚ))
        / total_weight sigs := by
    rw [composite_score, composite_score, hW, hWS, div_sub_div_same]
    ring_nf
  rw [hdiff, abs_div, abs_of_pos hpos, abs_mul, abs_of_nonneg hw_s]
  have habs : |25 - ((sigs.get ⟨i, hi⟩).score : ℚ)| ≤ 100 := by
    rw [abs_le]
    have h0 : (0 : ℚ) ≤ ((sigs.get ⟨i, hi⟩).score : ℚ) := by exact_mod_cast hsc.1
    have h1 : ((sigs.get ⟨i, hi⟩).score : ℚ) ≤ 100 := by exact_mod_cast hsc.2
    constructor <;> linarith
  gcongr

/-- A two-source weight set exhibiting a truncation boundary crossing. -/
def c5_base : List RiskSignal :=
  [⟨"realized_vol", 0, 10, 1, ""⟩, ⟨"funding_rates", 0, 0, 1/10000, ""⟩]

/-- `c5_base` with source 1 replaced by its failure fallback. -/
def c5_swap : List RiskSignal := c5_base.set 1 (fallbackSignal "funding_rates" (1/10000))

/-- C5 counterexample: on the integer `risk_level` (the value the aggregator
returns), the fallback bound fails.  With weights (1, 1/10000) and scores
(10, 0), the all-succeed composite 100000/10001 truncates to 9, the fallback
composite 100025/10001 truncates to 10, so the level moves by 1 while the
claimed bound is 100/10001 < 1. -/
theorem fallback_bound_level_counterexample :
    risk_level_of c5_base = 9 ∧ risk_level_of c5_swap = 10 ∧
    ¬(|(risk_level_of c5_swap : ℚ) - (risk_level_of c5_base : ℚ)|
        ≤ (1/10000) * 100 / total_weight c5_base) := by
  have hb : composite_score c5_base = 100000/10001 := by
    norm_num [composite_score, weighted_sum, total_weight, c5_base]
  have hs : composite_score c5_swap = 100025/10001 := by
    norm_num [composite_score, weighted_sum, total_weight, c5_swap, c5_base,
      List.set, fallbackSignal]
  have h9 : risk_level_of c5_base = 9 := by
    rw [risk_level_of, hb]; norm_num [pyInt]
  have h10 : risk_level_of c5_swap = 10 := by
    rw [risk_level_of, hs]; norm_num [pyInt]
  refine ⟨h9, h10, ?_⟩
  rw [h9, h10]
  norm_num [total_weight, c5_base]

/-- Witness for C5 (amended) at a concrete two-signal input. -/
theorem composite_fallback_shift_bound_witness :
    (0 : ℕ) < c5_base.length ∧
    (∀ s ∈ c5_base, 0 ≤ s.score ∧ s.score ≤ 100) ∧
    (∀ s ∈ c5_base, 0 ≤ s.weight) ∧
    0 < total_weight c5_base ∧
    |composite_score
        (c5_base.set 0
          (fallbackSignal (c5_base.get ⟨0, by norm_num [c5_base]⟩).name
            (c5_base.get ⟨0, by norm_num [c5_base]⟩).weight))
      - composite_score c5_base|
      ≤ (c5_base.get ⟨0, by norm_num [c5_base]⟩).weight * 100 / total_weight c5_base := by
  have h1 : ∀ s ∈ c5_base, 0 ≤ s.score ∧ s.score ≤ 100 := by norm_num [c5_base]
  have h2 : ∀ s ∈ c5_base, 0 ≤ s.weight := by norm_num [c5_base]
  have h3 : 0 < total_weight c5_base := by norm_num [total_weight, c5_base]
  exact ⟨by norm_num [c5_base], h1, h2, h3,
    composite_fallback_shift_bound c5_base 0 (by norm_num [c5_base]) h1 h2 h3⟩

end RiskEngine

namespace ClaudeAgent

/-- Result dict of `ToolExecutor._tool_evaluate_claim`
(`src/agent/src/claude_agent.py`, lines 178–216).  The free-text `reason` and
the `claimant` passthrough are omitted; every numeric field is kept.
`payout_frac` is the dict's `payout_ratio` entry. -/
inductive ToolClaimResult where
  | invalid_price : ToolClaimResult
  | not_triggered (policy_id : ℤ) (payout_eth actual_drop_pct required_drop_pct : ℚ) :
      ToolClaimResult
  | approved
      (policy_id : ℤ) (payout_eth payout_frac actual_drop_pct required_drop_pct : ℚ) :
      ToolClaimResult
  deriving DecidableEq

/-- `ToolExecutor._tool_evaluate_claim`. -/
def tool_evaluate_claim (policy_id : ℤ)
    (trigger_price original_price coverage_amount_eth trigger_threshold : ℚ) :
    ToolClaimResult :=
  if original_price ≤ 0 then ToolClaimResult.invalid_price
  else
    let actual_drop := (original_price - trigger_price) / original_price
    if trigger_threshold ≤ actual_drop then
      let excess_drop := actual_drop - trigger_threshold
      let payout_frac := min 1 (1/2 + excess_drop * 2)
      ToolClaimResult.approved policy_id
        (pyRound (coverage_amount_eth * payout_frac) 6)
        (pyRound payout_frac 4)
        (pyRound (actual_drop * 100) 2)
        (pyRound (trigger_threshold * 100) 2)
    else
      ToolClaimResult.not_triggered policy_id 0
        (pyRound (actual_drop * 100) 2)
        (pyRound (trigger_threshold * 100) 2)

/-- C2 (amended): for `original_price > 0` the decision is triggered iff
`(original_price - trigger_price)/original_price ≥ trigger_threshold`; when
triggered, the reported ratio is `min(1, 0.5 + 2·(drop - threshold))`
**rounded to 4 decimal places** and the payout is coverage times the exact
ratio **rounded to 6 decimal places**; when not triggered the payout is 0. -/
theorem tool_evaluate_claim_formula (pid : ℤ) (tp op cov thr : ℚ) (hop : 0 < op) :
    (thr ≤ (op - tp) / op →
      tool_evaluate_claim pid tp op cov thr =
        ToolClaimResult.approved pid
          (pyRound (cov * min 1 (1/2 + ((op - tp) / op - thr) * 2)) 6)
          (pyRound (min 1 (1/2 + ((op - tp) / op - thr) * 2)) 4)
          (pyRound ((op - tp) / op * 100) 2)
          (pyRound (thr * 100) 2)) ∧
    ((op - tp) / op < thr →
      tool_evaluate_claim pid tp op cov thr =
        ToolClaimResult.not_triggered pid 0
          (pyRound ((op - tp) / op * 100) 2)
          (pyRound (thr * 100) 2)) := by
  constructor
  · intro htr
    rw [tool_evaluate_claim, if_neg (not_le.mpr hop), if_pos htr]
  · intro hnt
    rw [tool_evaluate_claim, if_neg (not_le.mpr hop), if_neg (not_le.mpr hnt)]

/-- Witness for C2 (amended) at the spec's two examples:
(100, 78, 0.20) triggers with ratio 0.54 and (100, 85, 0.20) does not. -/
theorem tool_evaluate_claim_formula_witness :
    (0 : ℚ) < 100 ∧ (1/5 : ℚ) ≤ (100 - 78) / 100 ∧ (100 - 85) / 100 < (1/5 : ℚ) ∧
    tool_evaluate_claim 7 78 100 1000 (1/5) =
      ToolClaimResult.approved 7 540 (27/50) 22 20 ∧
    tool_evaluate_claim 7 85 100 1000 (1/5) =
      ToolClaimResult.not_triggered 7 0 15 20 := by
  have h1 : (0 : ℚ) < 100 := by norm_num
  have h2 : (1/5 : ℚ) ≤ (100 - 78) / 100 := by norm_num
  have h3 : ((100 : ℚ) - 85) / 100 < 1/5 := by norm_num
  refine ⟨h1, h2, h3, ?_, ?_⟩
  · have h := (tool_evaluate_claim_formula 7 78 100 1000 (1/5) h1).1 h2
    rw [h]
    norm_num [pyRound, halfEven]
  · have h := (tool_evaluate_claim_formula 7 85 100 1000 (1/5) h1).2 h3
    rw [h]
    norm_num [pyRound, halfEven]

/-- C2 counterexample: at originalPrice 300, triggerPrice 239, threshold 0.2,
coverage 1, the exact ratio is 38/75 = 0.50666…, but the code reports
`payout_ratio = 0.5067` and `payout_eth = 0.506667` (rounded), so neither
equals the exact formula value claimed. -/
theorem tool_evaluate_claim_rounding_counterexample :
    tool_evaluate_claim 1 239 300 1 (1/5) =
      ToolClaimResult.approved 1 (506667/1000000) (5067/10000) (2033/100) 20 ∧
    min 1 (1/2 + ((300 - 239) / 300 - 1/5) * 2) = (38/75 : ℚ) ∧
    (5067/10000 : ℚ) ≠ 38/75 ∧
    (506667/1000000 : ℚ) ≠ 1 * (38/75) := by
  refine ⟨?_, by norm_num, by norm_num, by norm_num⟩
  rw [tool_evaluate_claim, if_neg (by norm_num), if_pos (by norm_num)]
  norm_num [pyRound, halfEven]

end ClaudeAgent

namespace ClaudeAgent

/-- Python exceptions that `ClaudeAgent.evaluate_claim` can raise. -/
inductive PyExc where
  | zero_division : PyExc
  deriving DecidableEq

/-- The `ClaimDecision` model built by `ClaudeAgent.evaluate_claim`
(`src/agent/src/claude_agent.py`, lines 333–353).  `has_rejection` records
whether `rejection_reason` is non-`None` (its text is formatting of the
numeric inputs). -/
structure ClaimDecision where
  policy_id : ℤ
  approved : Bool
  payout_eth : ℚ
  has_rejection : Bool
  deriving DecidableEq

/-- `ClaudeAgent.evaluate_claim`, numeric core.  Unlike the tool path it has
no `original_price` guard: at `original_price = 0` the division raises
`ZeroDivisionError`, and for negative prices it computes a decision. -/
def agent_evaluate_claim (pid : ℤ)
    (trigger_price original_price coverage_amount_eth trigger_threshold : ℚ) :
    Except PyExc ClaimDecision :=
  if original_price = 0 then Except.error PyExc.zero_division
  else
    let actual_drop := (original_price - trigger_price) / original_price
    if trigger_threshold ≤ actual_drop then
      Except.ok
        { policy_id := pid, approved := true,
          payout_eth :=
            pyRound (coverage_amount_eth *
              min 1 (1/2 + (actual_drop - trigger_threshold) * 2)) 6,
          has_rejection := false }
    else
      Except.ok
        { policy_id := pid, approved := false, payout_eth := 0,
          has_rejection := true }

/-- C6 (code bug): the spec requires every claim evaluation with
`originalPrice ≤ 0` to fail with `InvalidInput`.  The tool path does return
the invalid-input result, but `ClaudeAgent.evaluate_claim` has no guard: at
`original_price = 0` it raises an unhandled `ZeroDivisionError`, and at the
negative price −100 it returns a normal approved decision paying the full
coverage. -/
theorem agent_evaluate_claim_missing_guard :
    agent_evaluate_claim 1 50 0 100 (1/5) = Except.error PyExc.zero_division ∧
    agent_evaluate_claim 1 50 (-100) 100 (1/5) =
      Except.ok { policy_id := 1, approved := true, payout_eth := 100,
                  has_rejection := false } ∧
    tool_evaluate_claim 1 50 0 100 (1/5) = ToolClaimResult.invalid_price := by
  refine ⟨?_, ?_, ?_⟩
  · rw [agent_evaluate_claim, if_pos rfl]
  · rw [agent_evaluate_claim, if_neg (by norm_num), if_pos (by norm_num)]
    norm_num [pyRound, halfEven, min_def]
  · rw [tool_evaluate_claim, if_pos (by norm_num)]

/-- C10: whenever the tool path approves a claim (trigger fired), the
reported payout ratio lies in [0.5, 1]. -/
theorem approved_payout_frac_bounds (pid pid2 : ℤ) (tp op cov thr pe pf adp rdp : ℚ)
    (h : tool_evaluate_claim pid tp op cov thr =
      ToolClaimResult.approved pid2 pe pf adp rdp) :
    1/2 ≤ pf ∧ pf ≤ 1 := by
  simp only [tool_evaluate_claim] at h
  split_ifs at h with h1 h2
  · injection h with e1 e2 e3 e4 e5
    have hpf : pf = pyRound (min 1 (1/2 + ((op - tp) / op - thr) * 2)) 4 := e3.symm
    have hq1 : (1/2 : ℚ) ≤ min 1 (1/2 + ((op - tp) / op - thr) * 2) := by
      have he : 0 ≤ (op - tp) / op - thr := by linarith
      exact le_min (by norm_num) (by linarith)
    have hq2 : min 1 (1/2 + ((op - tp) / op - thr) * 2) ≤ 1 := min_le_left _ _
    have hb := pyRound_bounds (n := 4) 5000 10000 (by norm_num) (by norm_num) hq1 hq2
    rw [hpf]
    exact hb

/-- Witness for C10 at the triggered example (100, 78, 0.20): ratio 0.54. -/
theorem approved_payout_frac_bounds_witness :
    tool_evaluate_claim 7 78 100 1000 (1/5) =
      ToolClaimResult.approved 7 540 (27/50) 22 20 ∧
    (1/2 ≤ (27/50 : ℚ) ∧ (27/50 : ℚ) ≤ 1) := by
  have h : tool_evaluate_claim 7 78 100 1000 (1/5) =
      ToolClaimResult.approved 7 540 (27/50) 22 20 := by
    rw [tool_evaluate_claim, if_neg (by norm_num), if_pos (by norm_num)]
    norm_num [pyRound, halfEven]
  exact ⟨h, approved_payout_frac_bounds 7 7 78 100 1000 (1/5) 540 (27/50) 22 20 h⟩

end ClaudeAgent

namespace LLMPricer

/-- `BASE_ANNUAL_RATES_BPS` of `src/agent/llm_pricer.py`. -/
def BASE_ANNUAL_RATES_BPS : List (String × ℤ) :=
  [("defi-protocol", 200), ("stablecoin-depeg", 50), ("bridge", 300),
   ("liquidation", 150), ("oracle-manipulation", 250), ("governance-attack", 100),
   ("general", 175)]

/-- `BASE_ANNUAL_RATES_BPS.get(risk_category, BASE_ANNUAL_RATES_BPS["general"])`;
the `"general"` entry is 175. -/
def base_rate_for (risk_category : String) : ℤ :=
  (BASE_ANNUAL_RATES_BPS.lookup risk_category).getD 175

/-- Numeric fields of the quote dict returned by `LLMPricer.price_premium`
(the LLM `reasoning` text, the `risk_factors` strings and the wall-clock
`quote_valid_until` timestamp are outside the numeric core). -/
structure PremiumQuote where
  coverage_amount : ℚ
  premium_amount : ℚ
  premium_rate_bps : ℤ
  risk_level : ℤ
  deriving DecidableEq

/-- `LLMPricer.price_premium`, lines 64–107 of `src/agent/llm_pricer.py`.
`premium_mult` is `current_risk["premium_multiplier"]` and `risk_level` is
`current_risk["risk_level"]` of the composite passed in. -/
def price_premium (coverage_amount : ℚ) (risk_category : String)
    (duration_days : ℤ) (premium_mult : ℚ) (risk_level : ℤ) : PremiumQuote :=
  let base_rate_bps := base_rate_for risk_category
  let duration_factor : ℚ := (duration_days : ℚ) / 365
  let r1 := pyInt ((base_rate_bps : ℚ) * premium_mult)
  let adjusted_rate_bps :=
    if 180 ≤ duration_days then pyInt ((r1 : ℚ) * (85/100))
    else if 90 ≤ duration_days then pyInt ((r1 : ℚ) * (92/100))
    else r1
  let premium_amount := coverage_amount * (adjusted_rate_bps : ℚ) / 10000 * duration_factor
  { coverage_amount := coverage_amount
    premium_amount := pyRound premium_amount 2
    premium_rate_bps := adjusted_rate_bps
    risk_level := risk_level }

/-- Modelled from the spec (§4.2): `adjustedRateBps = round(baseRateBps ·
premiumMultiplier)`, then the duration discount is applied as a plain
multiplication (`×0.85` for ≥180 days, `×0.92` for ≥90 days). -/
def spec_adjusted_rate (risk_category : String) (duration_days : ℤ)
    (premium_mult : ℚ) : ℚ :=
  (round ((base_rate_for risk_category : ℚ) * premium_mult) : ℚ) *
    (if 180 ≤ duration_days then 85/100
     else if 90 ≤ duration_days then 92/100 else 1)

/-- C3 (amended): the base rate is looked up in the category table with the
175 bps "general" fallback for unknown categories; the adjusted rate is the
`int()`-truncation of `base · multiplier`, and the duration discount is
itself `int()`-truncated (`int(rate · 0.85)` for ≥180 days, `int(rate ·
0.92)` for ≥90 days); the premium is `coverage · rate/10000 · days/365`
rounded to 2 decimal places.  The spec's bridge example (coverage 1,000,000,
300 bps, multiplier 1.0, 30 days) yields rate 300 and premium 2465.75. -/
theorem price_premium_formula (cov : ℚ) (cat : String) (d : ℤ) (mult : ℚ) (rl : ℤ) :
    (price_premium cov cat d mult rl).premium_rate_bps =
      (if 180 ≤ d then pyInt ((pyInt ((base_rate_for cat : ℚ) * mult) : ℚ) * (85/100))
       else if 90 ≤ d then pyInt ((pyInt ((base_rate_for cat : ℚ) * mult) : ℚ) * (92/100))
       else pyInt ((base_rate_for cat : ℚ) * mult)) ∧
    (price_premium cov cat d mult rl).premium_amount =
      pyRound (cov * ((price_premium cov cat d mult rl).premium_rate_bps : ℚ)
        / 10000 * ((d : ℚ) / 365)) 2 ∧
    base_rate_for "bridge" = 300 ∧
    (BASE_ANNUAL_RATES_BPS.lookup "tradfi-bank" = none ∧
      base_rate_for "tradfi-bank" = 175) ∧
    (price_premium 1000000 "bridge" 30 1 rl).premium_rate_bps = 300 ∧
    (price_premium 1000000 "bridge" 30 1 rl).premium_amount = 246575/100 := by
  have hbridge : base_rate_for "bridge" = 300 := rfl
  have hr300 : (price_premium 1000000 "bridge" 30 1 rl).premium_rate_bps = 300 := by
    simp only [price_premium, hbridge]
    rw [if_neg (by norm_num), if_neg (by norm_num)]
    norm_num [pyInt]
  refine ⟨rfl, rfl, hbridge, ⟨rfl, rfl⟩, hr300, ?_⟩
  have hpa : (price_premium 1000000 "bridge" 30 1 rl).premium_amount =
      pyRound ((1000000 : ℚ) *
        ((price_premium 1000000 "bridge" 30 1 rl).premium_rate_bps : ℚ)
        / 10000 * ((30 : ℤ) / 365 : ℚ)) 2 := rfl
  rw [hpa, hr300]
  norm_num [pyRound, halfEven]

/-- Concrete inputs at which truncation and the spec's formula disagree. -/
def c3_cov : ℚ := 1000000

/-- C3 counterexample: category "oracle-manipulation" (250 bps), multiplier
1.0, 180 days.  The spec's adjusted rate is `round(250·1)·0.85 = 212.5`; the
code computes `int(int(250·1)·0.85) = 212`.  The premium is computed from the
truncated 212 (10454.79, where the spec's rate would give 10479.45…). -/
theorem price_premium_truncation_counterexample :
    (price_premium c3_cov "oracle-manipulation" 180 1 10).premium_rate_bps = 212 ∧
    spec_adjusted_rate "oracle-manipulation" 180 1 = 425/2 ∧
    ((price_premium c3_cov "oracle-manipulation" 180 1 10).premium_rate_bps : ℚ) ≠
      spec_adjusted_rate "oracle-manipulation" 180 1 ∧
    (price_premium c3_cov "oracle-manipulation" 180 1 10).premium_amount = 1045479/100 := by
  have hbase : base_rate_for "oracle-manipulation" = 250 := rfl
  have hr : (price_premium c3_cov "oracle-manipulation" 180 1 10).premium_rate_bps = 212 := by
    simp only [price_premium, hbase]
    rw [if_pos (by norm_num)]
    norm_num [pyInt]
  have hs : spec_adjusted_rate "oracle-manipulation" 180 1 = 425/2 := by
    rw [spec_adjusted_rate, hbase, if_pos (by norm_num)]
    norm_num [round_eq]
  refine ⟨hr, hs, ?_, ?_⟩
  · rw [hr, hs]; norm_num
  · have hpa : (price_premium c3_cov "oracle-manipulation" 180 1 10).premium_amount =
        pyRound (c3_cov *
          ((price_premium c3_cov "oracle-manipulation" 180 1 10).premium_rate_bps : ℚ)
          / 10000 * ((180 : ℤ) / 365 : ℚ)) 2 := rfl
    rw [hpa, hr]
    norm_num [c3_cov, pyRound, halfEven]

end LLMPricer

namespace Rebalancer

/-- The sort key of `sorted(signals.items(), key=…score, reverse=True)`:
descending by score.  Python's `sorted` is stable, so equal scores keep the
map's insertion order. -/
def byScoreDesc : (String × ℤ) → (String × ℤ) → Prop := fun a b => b.2 ≤ a.2

instance : DecidableRel byScoreDesc := fun a b => inferInstanceAs (Decidable (b.2 ≤ a.2))

instance : IsTotal (String × ℤ) byScoreDesc := ⟨fun a b => le_total b.2 a.2⟩

instance : IsTrans (String × ℤ) byScoreDesc := ⟨fun _ _ _ h h' => le_trans h' h⟩

/-- The rebalance plan dict of `Rebalancer.trigger_defensive_rebalance`
(`src/agent/rebalancer.py`, lines 28–64).  `top_risk_signals` keeps the
(name, score) pairs; the source formats each as "name: score/100".  The
demo/executing `status` flag (an environment lookup) is omitted. -/
structure RebalancePlan where
  triggered_at_risk_level : ℤ
  action : String
  target_allocation : List (String × ℚ)
  top_risk_signals : List (String × ℤ)

/-- `Rebalancer.trigger_defensive_rebalance`: tiered fixed allocations and
the top-3 signals by descending score (stable sort). -/
def trigger_defensive_rebalance (risk_level : ℤ) (signals : List (String × ℤ)) :
    RebalancePlan :=
  let aa :=
    if 80 ≤ risk_level then
      ([("USDC", (70:ℚ)/100), ("USDT", 20/100), ("DAI", 10/100), ("ETH", 0)],
       "EMERGENCY: Full flight to stablecoins")
    else if 60 ≤ risk_level then
      ([("USDC", (40:ℚ)/100), ("USDT", 20/100), ("DAI", 10/100), ("ETH", 30/100)],
       "DEFENSIVE: Reducing volatile exposure 70%")
    else
      ([("USDC", (20:ℚ)/100), ("USDT", 10/100), ("DAI", 5/100), ("ETH", 65/100)],
       "CAUTIOUS: Slight defensive tilt")
  { triggered_at_risk_level := risk_level
    action := aa.2
    target_allocation := aa.1
    top_risk_signals := (signals.insertionSort byScoreDesc).take 3 }

/-- Modelled from the spec (§4.4): the 3 highest-scoring entries "ties broken
by signal name ascending". -/
def specByScoreDescNameAsc : (String × ℤ) → (String × ℤ) → Prop :=
  fun a b => b.2 < a.2 ∨ (a.2 = b.2 ∧ a.1 ≤ b.1)

instance : DecidableRel specByScoreDescNameAsc := fun a b =>
  inferInstanceAs (Decidable (b.2 < a.2 ∨ (a.2 = b.2 ∧ a.1 ≤ b.1)))

/-- Modelled from the spec (§4.4): `topSignals` with name-ascending
tie-breaking. -/
def spec_top_signals (signals : List (String × ℤ)) : List (String × ℤ) :=
  (signals.insertionSort specByScoreDescNameAsc).take 3

/-- C9 (amended): `top_risk_signals` is the first three entries of a stable
descending sort, so it contains exactly the 3 highest-scoring entries (fewer
if the map is smaller), in descending score order, with ties kept in the
signal map's insertion order — deterministic for a fixed map, but not
name-ascending. -/
theorem top_risk_signals_are_three_highest (rl : ℤ) (signals : List (String × ℤ)) :
    ∃ rest : List (String × ℤ),
      List.Perm ((trigger_defensive_rebalance rl signals).top_risk_signals ++ rest)
        signals ∧
      (trigger_defensive_rebalance rl signals).top_risk_signals.length
        = min 3 signals.length ∧
      List.Sorted byScoreDesc ((trigger_defensive_rebalance rl signals).top_risk_signals) ∧
      ∀ x ∈ (trigger_defensive_rebalance rl signals).top_risk_signals,
        ∀ y ∈ rest, y.2 ≤ x.2 := by
  have htop : (trigger_defensive_rebalance rl signals).top_risk_signals
      = (signals.insertionSort byScoreDesc).take 3 := rfl
  refine ⟨(signals.insertionSort byScoreDesc).drop 3, ?_, ?_, ?_, ?_⟩
  · rw [htop, List.take_append_drop]
    exact List.perm_insertionSort byScoreDesc signals
  · rw [htop, List.length_take,
      List.length_insertionSort byScoreDesc signals]
  · rw [htop]
    exact (List.sorted_insertionSort byScoreDesc signals).sublist
      (List.take_sublist 3 _)
  · intro x hx y hy
    have hsorted := List.sorted_insertionSort byScoreDesc signals
    have hsplit := List.pairwise_append.mp
      ((List.take_append_drop 3 (signals.insertionSort byScoreDesc)) ▸ hsorted)
    rw [htop] at hx
    exact hsplit.2.2 x hx y hy

/-- A signals map whose insertion order disagrees with name order on a tie. -/
def c9_signals : List (String × ℤ) := [("b_sig", 50), ("a_sig", 50), ("c_sig", 10)]

/-- C9 counterexample: with two signals tied at score 50, the code keeps the
map's insertion order ("b_sig" before "a_sig"); the claimed name-ascending
tie-break would put "a_sig" first. -/
theorem top_risk_signals_tiebreak_counterexample :
    (trigger_defensive_rebalance 70 c9_signals).top_risk_signals
      = [("b_sig", 50), ("a_sig", 50), ("c_sig", 10)] ∧
    spec_top_signals c9_signals = [("a_sig", 50), ("b_sig", 50), ("c_sig", 10)] ∧
    (trigger_defensive_rebalance 70 c9_signals).top_risk_signals
      ≠ spec_top_signals c9_signals := by
  have hcode : (trigger_defensive_rebalance 70 c9_signals).top_risk_signals
      = [("b_sig", 50), ("a_sig", 50), ("c_sig", 10)] := by
    have htop : (trigger_defensive_rebalance 70 c9_signals).top_risk_signals
        = (c9_signals.insertionSort byScoreDesc).take 3 := rfl
    rw [htop]
    decide
  have hac : specByScoreDescNameAsc ("a_sig", 50) ("c_sig", 10) := Or.inl (by decide)
  have hbc : specByScoreDescNameAsc ("b_sig", 50) ("c_sig", 10) := Or.inl (by decide)
  have hba : ¬ specByScoreDescNameAsc ("b_sig", 50) ("a_sig", 50) := by
    rintro (h | ⟨-, h⟩)
    · exact absurd h (by decide)
    · rw [String.le_iff_toList_le] at h
      exact absurd h (by decide)
  have hspec : spec_top_signals c9_signals
      = [("a_sig", 50), ("b_sig", 50), ("c_sig", 10)] := by
    simp [spec_top_signals, c9_signals, List.insertionSort, List.orderedInsert,
      hac, hbc, hba]
  refine ⟨hcode, hspec, ?_⟩
  rw [hcode, hspec]
  decide

end Rebalancer

namespace AgentLoop

/-- The `_stats` counters of `AgentLoop` (`src/agent/src/agent_loop.py`,
lines 42–49).  Together with `_running`, `_last_vol_update` and
`_cycle_count` this is the loop's entire mutable state: it contains no
per-policy data. -/
structure Stats where
  cycles : ℕ
  vol_updates : ℕ
  claims_assessed : ℕ
  claims_paid : ℕ
  claims_rejected : ℕ
  errors : ℕ
  deriving DecidableEq

/-- A cycle body as observed by `AgentLoop._run`: from the stats at entry it
produces the stats as mutated by the cycle's own actions, plus the exception
it raised, if any (Python leaves partial mutations in place when an
exception escapes mid-cycle). -/
def Cycle : Type := Stats → Stats × Option String

/-- One iteration of the `while self._running` loop of `AgentLoop._run`
(lines 69–78): run the cycle under `try`, and on any exception increment
`_stats["errors"]` and fall through to the sleep. -/
def run_step (c : Cycle) (st : Stats) : Stats :=
  match c st with
  | (st1, none) => st1
  | (st1, some _) => { st1 with errors := st1.errors + 1 }

/-- The loop driven over a finite schedule of cycles (the loop itself runs
while `_running`; a list models any finite prefix of the schedule). -/
def run_loop (cs : List Cycle) (st : Stats) : Stats :=
  match cs with
  | [] => st
  | c :: rest => run_loop rest (run_step c st)

/-- How many cycles of the schedule raise, along the actual trajectory. -/
def raised_count (cs : List Cycle) (st : Stats) : ℕ :=
  match cs with
  | [] => 0
  | c :: rest => (if (c st).2.isSome then 1 else 0) + raised_count rest (run_step c st)

theorem run_step_errors (c : Cycle) (st : Stats)
    (hc : ((c st).1).errors = st.errors) :
    (run_step c st).errors = st.errors + (if (c st).2.isSome then 1 else 0) := by
  rw [run_step]
  rcases hcs : c st with ⟨a, b⟩
  rw [hcs] at hc
  cases b <;> simp_all

theorem run_loop_errors (cs : List Cycle) :
    ∀ st : Stats, (∀ c ∈ cs, ∀ s, ((c s).1).errors = s.errors) →
      (run_loop cs st).errors = st.errors + raised_count cs st := by
  induction cs with
  | nil => intro st _; rfl
  | cons c rest ih =>
    intro st h
    have hc := h c (List.mem_cons_self c rest) st
    have hrest : ∀ c' ∈ rest, ∀ s, ((c' s).1).errors = s.errors :=
      fun c' hc' => h c' (List.mem_cons_of_mem c hc')
    have hstep := run_step_errors c st hc
    show (run_loop rest (run_step c st)).errors = st.errors + raised_count (c :: rest) st
    rw [ih (run_step c st) hrest, hstep, raised_count]
    omega

/-- C8: provided the cycle bodies themselves never touch the `errors`
counter (true of `AgentLoop._cycle`: only `_run`'s `except` branch does),
every raising cycle is caught, bumps `errors` by exactly one, and the loop
continues with the next scheduled cycle: over any schedule, the loop
processes every cycle and the final `errors` equals the initial value plus
the number of raising cycles. -/
theorem cycle_errors_caught_and_counted (cs : List Cycle) (st : Stats)
    (h : ∀ c ∈ cs, ∀ s, ((c s).1).errors = s.errors) :
    (∀ c ∈ cs, ∀ s, (run_step c s).errors
        = s.errors + (if (c s).2.isSome then 1 else 0)) ∧
    (∀ c rest, cs = c :: rest → run_loop cs st = run_loop rest (run_step c st)) ∧
    (run_loop cs st).errors = st.errors + raised_count cs st := by
  refine ⟨fun c hc s => run_step_errors c s (h c hc s), ?_, run_loop_errors cs st h⟩
  rintro c rest rfl
  rfl

/-- Fresh process-start counters. -/
def stats0 : Stats := ⟨0, 0, 0, 0, 0, 0⟩

/-- A schedule with one raising cycle and one normal cycle. -/
def c8_cycles : List Cycle :=
  [fun s => (s, some "RuntimeError"),
   fun s => ({ s with cycles := s.cycles + 1 }, none)]

/-- Witness for C8 at a concrete two-cycle schedule: the raising first cycle
is counted once and the second cycle still runs. -/
theorem cycle_errors_caught_and_counted_witness :
    (∀ c ∈ c8_cycles, ∀ s, ((c s).1).errors = s.errors) ∧
    ((∀ c ∈ c8_cycles, ∀ s, (run_step c s).errors
        = s.errors + (if (c s).2.isSome then 1 else 0)) ∧
     (∀ c rest, c8_cycles = c :: rest →
        run_loop c8_cycles stats0 = run_loop rest (run_step c stats0)) ∧
     (run_loop c8_cycles stats0).errors = stats0.errors + raised_count c8_cycles stats0) := by
  have h : ∀ c ∈ c8_cycles, ∀ s, ((c s).1).errors = s.errors := by
    intro c hc s
    rcases (by simpa [c8_cycles] using hc : c = _ ∨ c = _) with rfl | rfl <;> rfl
  exact ⟨h, cycle_errors_caught_and_counted c8_cycles stats0 h⟩

end AgentLoop

namespace AgentLoop

/-- A policy as read by `AgentLoop._scan_policies` from the chain
(`blockchain.get_policy`): the zero-address holder sentinel, the status
(0 = Active) and the volatility trigger threshold in bps. -/
structure Policy where
  holder_is_zero : Bool
  status : ℤ
  triggerThreshold : ℤ

/-- The LLM claim assessment consumed by the scan (`RiskEngine.assess_claim`
is total: it catches its own failures and returns a no-pay decision). -/
structure LLMClaimDecision where
  should_pay : Bool
  confidence : ℚ

/-- External collaborators of one `_scan_policies` call.  `get_policy` may
raise (caught per policy); `pay_ok` is whether `blockchain.pay_claim`
succeeds for a policy id. -/
structure ScanEnv where
  get_policy : ℕ → Except String Policy
  current_vol : ℤ
  assess : ℕ → LLMClaimDecision
  pay_ok : ℕ → Bool

/-- `AgentLoop._execute_claim` (lines 177–190): a successful submission
increments `claims_paid`, a failed one is caught and increments
`claims_rejected`; there is no per-policy state to set or clear. -/
def execute_claim (env : ScanEnv) (st : Stats) (pid : ℕ) : Stats :=
  if env.pay_ok pid then { st with claims_paid := st.claims_paid + 1 }
  else { st with claims_rejected := st.claims_rejected + 1 }

/-- The body of `_scan_policies` (lines 127–175) over a list of policy ids:
stop at the zero-holder sentinel, skip inactive or untriggered policies,
assess the rest, and submit (sequentially and synchronously) when the
execution gate `should_pay ∧ confidence ≥ 0.7` passes.  Returns the final
stats and the ids submitted, in order. -/
def scan_go (env : ScanEnv) : List ℕ → Stats → Stats × List ℕ
  | [], st => (st, [])
  | pid :: rest, st =>
    match env.get_policy pid with
    | Except.error _ => scan_go env rest st
    | Except.ok p =>
      if p.holder_is_zero then (st, [])
      else if p.status ≠ 0 then scan_go env rest st
      else if env.current_vol < p.triggerThreshold then scan_go env rest st
      else
        let st1 := { st with claims_assessed := st.claims_assessed + 1 }
        let d := env.assess pid
        if d.should_pay ∧ (7/10 : ℚ) ≤ d.confidence then
          let r := scan_go env rest (execute_claim env st1 pid)
          (r.1, pid :: r.2)
        else scan_go env rest st1

/-- One cycle's policy scan: ids 1..100, as in the source's `range(1, 101)`. -/
def scan_policies (env : ScanEnv) (st : Stats) : Stats × List ℕ :=
  scan_go env (List.range' 1 100) st

theorem scan_go_sublist (env : ScanEnv) :
    ∀ (ids : List ℕ) (st : Stats), List.Sublist (scan_go env ids st).2 ids := by
  intro ids
  induction ids with
  | nil => intro st; simp [scan_go]
  | cons pid rest ih =>
    intro st
    rw [scan_go]
    rcases env.get_policy pid with _ | p
    · exact (ih st).cons pid
    · dsimp only
      split_ifs
      · simp
      · exact (ih st).cons pid
      · exact (ih st).cons pid
      · exact (ih _).cons₂ pid
      · exact (ih _).cons pid

/-- Supporting fact for the duplicate-execution discussion: within one cycle
the scan visits each policy id at most once, so it issues at most one
claim-payout submission per policy id — without any per-policy in-progress
marker (the loop state `Stats` has none). -/
theorem scan_policies_at_most_once_per_policy (env : ScanEnv) (st : Stats) :
    (scan_policies env st).2.Nodup :=
  (scan_go_sublist env (List.range' 1 100) st).nodup (List.nodup_range' 1 100)

end AgentLoop
